import Mathlib

/-!
Verification of the enen demo core (puzzle state machines, trial
generation, history window, text buffer and frame escaping) against a
shallow embedding of the C++ sources in `include/puzzles.hpp`,
`include/history.hpp` and `include/frame.hpp`.

Machine integers are modelled as `Nat` with explicit reduction modulo
`2^32` where the C++ code relies on `uint32_t` wraparound; `int`
quantities that can be negative (screen coordinates, `int16_t` sizes)
are modelled as `Int`.
-/

namespace enen

/-! ### RNG (xorshift32), from `include/puzzles.hpp` lines 19-30 -/

/-- One xorshift32 update of the 32-bit state, as in `RNG::next`:
`s ^= s<<13; s ^= s>>17; s ^= s<<5; return s;` on `uint32_t`. -/
def xorshiftStep (s : Nat) : Nat :=
  let s1 := (s ^^^ (s <<< 13)) % 4294967296
  let s2 := s1 ^^^ (s1 >>> 17)
  (s2 ^^^ (s2 <<< 5)) % 4294967296

/-- The RNG state: a single `uint32_t`. -/
structure RNG where
  state : Nat
deriving DecidableEq, Repr

/-- `RNG(uint32_t seed)`: the constructor stores the seed unchanged
(the `% 2^32` models the conversion of the argument to `uint32_t`). -/
def RNG.ofSeed (seed : Nat) : RNG :=
  ⟨seed % 4294967296⟩

/-- The default value of the constructor's `seed` parameter
(`RNG(uint32_t seed = 12345)`), used only when no seed is passed. -/
def RNG.defaultSeed : Nat := 12345

/-- `RNG::next()`: advance the state and return the new state. -/
def RNG.next (r : RNG) : Nat × RNG :=
  let s := xorshiftStep r.state
  (s, ⟨s⟩)

/-- The list of the first `n` values returned by successive `next()`
calls on `r`. -/
def RNG.traceN (r : RNG) : Nat → List Nat
  | 0 => []
  | n + 1 =>
    let p := r.next
    p.1 :: p.2.traceN n

/-! ### LearningValidator, from `include/puzzles.hpp` lines 273-309 -/

/-- The validator state: `{failures, successes, total_trials}`, all
starting at 0. -/
structure LearningValidator where
  failures : Nat := 0
  successes : Nat := 0
  total_trials : Nat := 0
deriving DecidableEq, Repr

/-- `LearningValidator::reset()` / the initial state. -/
def LearningValidator.reset : LearningValidator := {}

/-- `LearningValidator::recordOutcome(bool success)`: increments
`total_trials`; on success increments `successes`; on failure increments
`failures` and resets `successes` to 0. -/
def LearningValidator.recordOutcome (v : LearningValidator) (success : Bool) :
    LearningValidator :=
  if success then
    { v with total_trials := v.total_trials + 1, successes := v.successes + 1 }
  else
    { v with total_trials := v.total_trials + 1, failures := v.failures + 1,
             successes := 0 }

/-- `LearningValidator::requiredSuccesses()`: fixed at 4. -/
def LearningValidator.requiredSuccesses (_ : LearningValidator) : Nat := 4

/-- `LearningValidator::hasLearned()`:
`total_trials >= 5 && successes >= requiredSuccesses()`. -/
def LearningValidator.hasLearned (v : LearningValidator) : Bool :=
  decide (5 ≤ v.total_trials) && decide (v.requiredSuccesses ≤ v.successes)

/-- The validator state after recording a list of outcomes starting from
the reset state. -/
def runValidator (outcomes : List Bool) : LearningValidator :=
  outcomes.foldl LearningValidator.recordOutcome LearningValidator.reset

/-! ### GauntletState, from `include/puzzles.hpp` lines 317-355 -/

/-- The gauntlet state for puzzle 5:
`{warmup_completed, scored_completed, correct}`, all starting at 0. -/
structure GauntletState where
  warmup_completed : Nat := 0
  scored_completed : Nat := 0
  correct : Nat := 0
deriving DecidableEq, Repr

/-- `GauntletState::WARMUP_TRIALS = 10`. -/
def GauntletState.WARMUP_TRIALS : Nat := 10

/-- `GauntletState::SCORED_TRIALS = 20`. -/
def GauntletState.SCORED_TRIALS : Nat := 20

/-- `GauntletState::inWarmup()`: `warmup_completed < WARMUP_TRIALS`. -/
def GauntletState.inWarmup (g : GauntletState) : Bool :=
  decide (g.warmup_completed < GauntletState.WARMUP_TRIALS)

/-- `GauntletState::recordOutcome(bool success)`: during warmup only
`warmup_completed` is incremented; afterwards `scored_completed` is
incremented and, on success, `correct`. -/
def GauntletState.recordOutcome (g : GauntletState) (success : Bool) :
    GauntletState :=
  if g.inWarmup then
    { g with warmup_completed := g.warmup_completed + 1 }
  else
    { g with scored_completed := g.scored_completed + 1,
             correct := if success then g.correct + 1 else g.correct }

/-- `GauntletState::isComplete()`: `scored_completed >= SCORED_TRIALS`. -/
def GauntletState.isComplete (g : GauntletState) : Bool :=
  decide (GauntletState.SCORED_TRIALS ≤ g.scored_completed)

/-- `GauntletState::scorePercent()`: `(correct * 100) / scored_completed`,
and 0 when `scored_completed == 0`. -/
def GauntletState.scorePercent (g : GauntletState) : Nat :=
  if g.scored_completed = 0 then 0 else g.correct * 100 / g.scored_completed

/-- `GauntletState::reset()` / the initial state. -/
def GauntletState.reset : GauntletState := {}

/-- The gauntlet state after recording a list of outcomes starting from
the reset state. -/
def runGauntlet (outcomes : List Bool) : GauntletState :=
  outcomes.foldl GauntletState.recordOutcome GauntletState.reset

/-- The 31-outcome sequence `30 x false, then true`. -/
def gauntletSeqA : List Bool := List.replicate 30 false ++ [true]

/-- The 31-outcome sequence `31 x false`. -/
def gauntletSeqB : List Bool := List.replicate 30 false ++ [false]

/-- The 30-outcome sequence used to witness the gauntlet scenario:
10 warmup outcomes, then 15 correct and 5 wrong scored outcomes. -/
def gauntletSeq75 : List Bool :=
  List.replicate 10 false ++ (List.replicate 15 true ++ List.replicate 5 false)

/-! ### SequencePuzzle, from `include/puzzles.hpp` lines 186-231 -/

/-- The four states of the sequence puzzle. -/
inductive SequenceState
  | START
  | PRESSED_A
  | SUCCESS
  | FAIL
deriving DecidableEq, Repr

/-- `SequencePuzzle::pressButton(int button)` (0 = A, 1 = B): returns
whether the press was valid together with the new state. `START` moves
to `PRESSED_A` on A and to `FAIL` otherwise; `PRESSED_A` moves to
`SUCCESS` on B and to `FAIL` otherwise; the default case leaves the
state unchanged and returns false. -/
def SequencePuzzle.pressButton (s : SequenceState) (button : Int) :
    Bool × SequenceState :=
  match s with
  | .START => if button = 0 then (true, .PRESSED_A) else (false, .FAIL)
  | .PRESSED_A => if button = 1 then (true, .SUCCESS) else (false, .FAIL)
  | _ => (false, s)

/-! ### MushroomTrial, from `include/puzzles.hpp` lines 35-57 -/

/-- A puzzle-1 trial: two sizes, two noise colors and the ground truth. -/
structure MushroomTrial where
  sizeA : Int
  sizeB : Int
  colorA : Int
  colorB : Int
  correctIsA : Bool
deriving DecidableEq, Repr

/-- The re-draw loop of `MushroomTrial::generate`:
`while (abs(sizeA - sizeB) < 20) sizeB = 32 + rng.next() % 96;`.
The C++ loop is unbounded; `fuel` bounds the number of re-draws, and
`none` marks fuel exhaustion (the loop not having returned yet). -/
def MushroomTrial.forceGap (sizeA : Int) :
    Nat → Int → RNG → Option (Int × RNG)
  | fuel, sizeB, rng =>
    if |sizeA - sizeB| < 20 then
      match fuel with
      | 0 => none
      | f + 1 =>
        let p := rng.next
        MushroomTrial.forceGap sizeA f (32 + ((p.1 % 96 : Nat) : Int)) p.2
    else
      some (sizeB, rng)

/-- `MushroomTrial::generate(rng)` in non-adversarial mode: draw
`sizeA`, `sizeB` in `[32,127]`, re-draw `sizeB` until the gap is at
least 20, draw the two colors in `[0,127]`, and set
`correctIsA = sizeA > sizeB`. -/
def MushroomTrial.generate (rng : RNG) (fuel : Nat) :
    Option (MushroomTrial × RNG) :=
  let pA := rng.next
  let sizeA : Int := 32 + ((pA.1 % 96 : Nat) : Int)
  let pB := pA.2.next
  (MushroomTrial.forceGap sizeA fuel (32 + ((pB.1 % 96 : Nat) : Int)) pB.2).map
    (fun sr =>
      let pc := sr.2.next
      let pd := pc.2.next
      ({ sizeA := sizeA, sizeB := sr.1,
         colorA := ((pc.1 % 128 : Nat) : Int),
         colorB := ((pd.1 % 128 : Nat) : Int),
         correctIsA := decide (sr.1 < sizeA) }, pd.2))

/-- The trial generated from seed 42 (one draw of each value, no
re-draws needed). -/
def mushroomT42 : MushroomTrial :=
  { sizeA := 104, sizeB := 35, colorA := 64, colorB := 68, correctIsA := true }

/-! ### History / TrialHistory, from `include/history.hpp` lines 32-57
and `src/renderer.cpp` lines 17-22 (both implement the same logic). -/

/-- `HistoryEntry { int trialNum; bool correct; std::string summary; }`. -/
structure HistoryEntry where
  trialNum : Int
  correct : Bool
  summary : String
deriving DecidableEq, Repr

/-- `History::MAX_ENTRIES = 4`. -/
def History.MAX_ENTRIES : Nat := 4

/-- The eviction loop of `History::add`:
`while (entries_.size() > MAX_ENTRIES) entries_.erase(entries_.begin());`. -/
def History.shrink (l : List HistoryEntry) : List HistoryEntry :=
  if h : History.MAX_ENTRIES < l.length then History.shrink l.tail else l
termination_by l.length
decreasing_by
  simp only [History.MAX_ENTRIES] at h
  cases l with
  | nil => simp at h
  | cons a t => simp

/-- `History::add(trialNum, correct, summary)`: push the new entry to
the back, then evict from the front while the size exceeds 4. -/
def History.add (l : List HistoryEntry) (trialNum : Int) (correct : Bool)
    (summary : String) : List HistoryEntry :=
  History.shrink (l ++ [⟨trialNum, correct, summary⟩])

/-- One operation on a `History`: `add` or `clear`. -/
inductive HistOp
  | add (e : HistoryEntry)
  | clear

/-- Apply one operation to the entry list. -/
def History.applyOp (l : List HistoryEntry) : HistOp → List HistoryEntry
  | .add e => History.add l e.trialNum e.correct e.summary
  | .clear => []

/-- The entry list after a sequence of operations on an empty history. -/
def runHistory (ops : List HistOp) : List HistoryEntry :=
  ops.foldl History.applyOp []

/-! ### TextBuffer, from `include/frame.hpp` lines 24-96.
Cells hold byte values; coordinates are `Int` (C++ `int`), and the
80x24 bounds are those of `terminal::WIDTH`/`terminal::HEIGHT`. The
buffer is modelled as a total cell function; the drawing primitives
write only in-bounds cells, exactly where the C++ loops write. -/

/-- `terminal::WIDTH = 80`. -/
def terminalWidth : Int := 80

/-- `terminal::HEIGHT = 24`. -/
def terminalHeight : Int := 24

/-- The character buffer: the byte at column `x`, row `y`. Only cells
with `0 <= x < 80` and `0 <= y < 24` exist in the C++ array; all
observations (`line`) stay inside that range. -/
structure TextBuffer where
  cell : Int → Int → Nat

/-- `TextBuffer::clear()`: every cell becomes a space. -/
def TextBuffer.clear : TextBuffer :=
  ⟨fun _ _ => 32⟩

/-- `TextBuffer::putChar(x, y, c)`: writes only when both coordinates
are in bounds. -/
def TextBuffer.putChar (tb : TextBuffer) (x y : Int) (c : Nat) : TextBuffer :=
  ⟨fun cx cy =>
    if 0 ≤ x ∧ x < terminalWidth ∧ 0 ≤ y ∧ y < terminalHeight ∧
        cx = x ∧ cy = y then c
    else tb.cell cx cy⟩

/-- `TextBuffer::putString(x, y, str)`: returns unchanged when the row
is out of bounds; otherwise writes character `i` of `str` to column
`x + i` for every `i` with `0 <= i < len`, `x + i < 80` (the loop bound)
and `x + i >= 0` (the in-loop guard). -/
def TextBuffer.putString (tb : TextBuffer) (x y : Int) (s : List Nat) :
    TextBuffer :=
  if y < 0 ∨ terminalHeight ≤ y then tb
  else
    ⟨fun cx cy =>
      if cy = y ∧ 0 ≤ cx ∧ x ≤ cx ∧ cx < x + s.length ∧ cx < terminalWidth then
        s.getD (cx - x).toNat 0
      else tb.cell cx cy⟩

/-- `TextBuffer::drawHLine(x, y, length, c)`: writes `c` to columns
`x..x+length-1` of row `y`, with the same silent clamping. -/
def TextBuffer.drawHLine (tb : TextBuffer) (x y len : Int) (c : Nat) :
    TextBuffer :=
  ⟨fun cx cy =>
    if cy = y ∧ 0 ≤ y ∧ y < terminalHeight ∧ 0 ≤ cx ∧ x ≤ cx ∧
        cx < x + len ∧ cx < terminalWidth then c
    else tb.cell cx cy⟩

/-- The bytes of a string literal (`char` values of the C++ source). -/
def strBytes (s : String) : List Nat :=
  s.data.map Char.toNat

/-! ### FrameWriter escaping, from `include/frame.hpp` lines 32-47 and
106-182. Frame text is a list of byte values; the C++ `char` is signed,
so the comparisons `c >= 32`, `c < 127`, `c < 32` of `escapeForJson` are
made on the signed reinterpretation of the byte. -/

/-- The signed `char` value of a byte (two's complement). -/
def sByte (c : Nat) : Int :=
  if c < 128 then (c : Int) else (c : Int) - 256

/-- The lower-case hex digit byte for `n < 16`, as printed by
`snprintf("%04x", ...)`. -/
def hexDigit (n : Nat) : Nat :=
  if n < 10 then 48 + n else 87 + n

/-- The escape of one byte in `FrameWriter::escapeForJson`: double quote
and backslash are backslash-escaped, `\n` becomes the four bytes
`\r\n`, `\r` is dropped, `\t` becomes `\t`, printable characters
(signed `32 <= c < 127`) pass through, other signed values below 32
(control bytes and all bytes >= 128) become `\u00XX`, and anything else
(only byte 127) is dropped. -/
def encByte (c : Nat) : List Nat :=
  if c = 34 then [92, 34]
  else if c = 92 then [92, 92]
  else if c = 10 then [92, 114, 92, 110]
  else if c = 13 then []
  else if c = 9 then [92, 116]
  else if 32 ≤ sByte c ∧ sByte c < 127 then [c]
  else if sByte c < 32 then
    [92, 117, 48, 48, hexDigit (c / 16 % 16), hexDigit (c % 16)]
  else []

/-- `FrameWriter::escapeForJson`: escape every byte of the content. -/
def escapeForJson : List Nat → List Nat
  | [] => []
  | c :: cs => encByte c ++ escapeForJson cs

/-- `ansi::INIT`: clear + home + amber colors, emitted before the first
frame. -/
def ansiInit : List Nat :=
  strBytes "\x1b[2J\x1b[H\x1b[22m\x1b[38;2;242;178;51m\x1b[48;2;12;12;10m"

/-- `ansi::CLEAR`: clear + home, emitted before every later frame. -/
def ansiClear : List Nat :=
  strBytes "\x1b[2J\x1b[H"

/-- The 80 cell bytes of row `y` of the buffer array (the grid's row
content). -/
def TextBuffer.rowBytes (tb : TextBuffer) (y : Int) : List Nat :=
  (List.range 80).map (fun (x : Nat) => tb.cell (x : Int) y)

/-- `TextBuffer::line(y)` as consumed by `result += buffer.line(y)` in
`buildFrameContent`: `line` returns the row as a NUL-terminated C
string, so the `std::string` append reads the row's bytes only up to
(not including) the first NUL (byte 0) cell. -/
def TextBuffer.lineOf (tb : TextBuffer) (y : Int) : List Nat :=
  (tb.rowBytes y).takeWhile (fun c => c != 0)

/-- `FrameWriter::buildFrameContent`: the ANSI INIT prefix on the first
frame (CLEAR on later frames) followed by each of the 24 rows, each
terminated by a newline. -/
def buildFrameContent (firstFrame : Bool) (tb : TextBuffer) : List Nat :=
  (if firstFrame then ansiInit else ansiClear) ++
    ((List.range 24).map (fun (y : Nat) => tb.lineOf (y : Int) ++ [10])).flatten

/-- Rows joined by single newline separators (the spec's phrase
"the grid's row content joined by real newlines"). -/
def joinRowsNl : List (List Nat) → List Nat
  | [] => []
  | [r] => r
  | r :: rs => r ++ 10 :: joinRowsNl rs

/-- The grid's row content joined by real newlines. -/
def rowsJoinedByNewlines (tb : TextBuffer) : List Nat :=
  joinRowsNl ((List.range 24).map (fun (y : Nat) => tb.rowBytes (y : Int)))

/-- The value of a lower-case/upper-case hex digit byte.
Modelled from the spec: the inverse reading of a `\u00XX` escape,
which the spec's escaping rules produce for other bytes below 0x20. -/
def hexVal (d : Nat) : Nat :=
  if 97 ≤ d then d - 87 else if 65 ≤ d then d - 55 else d - 48

/-- Unescaping per the spec's stated escaping rules, inverted:
`\"` and `\\` drop the backslash, the two-character-escape pair `\r\n`
becomes one real newline, `\t` becomes a tab, `\u00XX` becomes byte
`XX`, and any other byte stands for itself. -/
def unescape : List Nat → List Nat
  | 92 :: 34 :: t => 34 :: unescape t
  | 92 :: 92 :: t => 92 :: unescape t
  | 92 :: 114 :: 92 :: 110 :: t => 10 :: unescape t
  | 92 :: 116 :: t => 9 :: unescape t
  | 92 :: 117 :: 48 :: 48 :: h1 :: h2 :: t =>
    (hexVal h1 * 16 + hexVal h2) :: unescape t
  | c :: t => c :: unescape t
  | [] => []

/-! ## Theorems -/

/-- C1: two RNG instances with equal state produce identical sequences
of `next()` values over any number of calls; in particular two
independently constructed instances initialized with the same seed
agree, so a demo run is reproducible from one seed. -/
theorem rng_same_state_same_sequence (r1 r2 : RNG) (n : Nat)
    (h : r1.state = r2.state) : r1.traceN n = r2.traceN n := by
  cases r1
  cases r2
  cases h
  rfl

/-- Witness for C1 at seed 42 and 3 calls. -/
theorem rng_same_state_same_sequence_witness :
    (RNG.ofSeed 42).state = (RNG.ofSeed 42).state ∧
      (RNG.ofSeed 42).traceN 3 = (RNG.ofSeed 42).traceN 3 :=
  ⟨rfl, rng_same_state_same_sequence (RNG.ofSeed 42) (RNG.ofSeed 42) 3 rfl⟩

/-- C4 counterexample: constructing with seed 0 does NOT substitute a
non-zero default — the state is stored as 0 and every `next()` value is
0, a degenerate sequence. -/
theorem rng_seed_zero_degenerate :
    (RNG.ofSeed 0).state = 0 ∧ (RNG.ofSeed 0).traceN 5 = [0, 0, 0, 0, 0] := by
  decide

/-- C4 amended: seed 0 is stored unchanged and yields the constant-0
(degenerate) sequence; the non-zero default 12345 is only the default
argument used when no seed is passed, and that default seed does produce
a non-zero first value. -/
theorem rng_seed_zero_amended (n : Nat) :
    (RNG.ofSeed 0).traceN n = List.replicate n 0 ∧
      (RNG.ofSeed RNG.defaultSeed).next.1 ≠ 0 := by
  constructor
  · induction n with
    | zero => rfl
    | succ k ih =>
      have hstep : (RNG.ofSeed 0).next = (0, RNG.ofSeed 0) := by decide
      simp only [RNG.traceN, hstep, List.replicate, ih]
  · decide

/-- C2: after any outcome sequence from reset, `hasLearned()` holds iff
`total_trials >= 5` and the consecutive-success counter is `>= 4`; and
recording one failure sets the counter to exactly 0 while still
incrementing (not resetting) `total_trials`. -/
theorem learning_validator_spec (outcomes : List Bool) :
    ((runValidator outcomes).hasLearned = true ↔
      5 ≤ (runValidator outcomes).total_trials ∧
        4 ≤ (runValidator outcomes).successes) ∧
    ((runValidator outcomes).recordOutcome false).successes = 0 ∧
    ((runValidator outcomes).recordOutcome false).total_trials =
      (runValidator outcomes).total_trials + 1 := by
  refine ⟨?_, ?_, ?_⟩
  · simp [LearningValidator.hasLearned, LearningValidator.requiredSuccesses]
  · simp [LearningValidator.recordOutcome]
  · simp [LearningValidator.recordOutcome]

/-- Closed form for `runGauntlet`: the first 10 outcomes go to warmup,
every later outcome is scored, and `correct` counts the `true` entries
past the 10th. -/
theorem runGauntlet_closed_form (outcomes : List Bool) :
    (runGauntlet outcomes).warmup_completed = min outcomes.length 10 ∧
    (runGauntlet outcomes).scored_completed = outcomes.length - 10 ∧
    (runGauntlet outcomes).correct = (outcomes.drop 10).count true := by
  induction outcomes using List.reverseRecOn with
  | nil => refine ⟨rfl, rfl, rfl⟩
  | append_singleton xs x ih =>
    obtain ⟨hw, hs, hc⟩ := ih
    have hrun : runGauntlet (xs ++ [x]) =
        (runGauntlet xs).recordOutcome x := by
      simp [runGauntlet, List.foldl_append]
    rw [hrun]
    unfold GauntletState.recordOutcome GauntletState.inWarmup
    rcases Nat.lt_or_ge xs.length 10 with hlt | hge
    · have hwlt : (runGauntlet xs).warmup_completed <
          GauntletState.WARMUP_TRIALS := by
        rw [hw]
        unfold GauntletState.WARMUP_TRIALS
        omega
      have hdrop1 : (xs ++ [x]).drop 10 = [] := by
        apply List.eq_nil_of_length_eq_zero
        simp
        omega
      have hdrop0 : xs.drop 10 = [] := by
        apply List.eq_nil_of_length_eq_zero
        simp
        omega
      simp only [hwlt, decide_eq_true_eq, if_pos, hdrop1]
      refine ⟨?_, ?_, ?_⟩
      · simp [hw]
        omega
      · simp [hs]
        omega
      · rw [hc, hdrop0]
    · have hwge : ¬ ((runGauntlet xs).warmup_completed <
          GauntletState.WARMUP_TRIALS) := by
        rw [hw]
        unfold GauntletState.WARMUP_TRIALS
        omega
      have hdrop : (xs ++ [x]).drop 10 = xs.drop 10 ++ [x] := by
        rw [List.drop_append_eq_append_drop]
        have h10 : 10 - xs.length = 0 := by omega
        rw [h10]
        rfl
      simp only [hwge, decide_eq_true_eq, if_neg, not_false_iff, hdrop]
      refine ⟨?_, ?_, ?_⟩
      · simp [hw]
        omega
      · simp [hs]
        omega
      · rw [List.count_append, hc]
        cases x <;> simp

set_option maxRecDepth 8192 in
/-- C3 counterexample: two outcome sequences that agree on their first
30 entries (in particular on the 11th through 30th) but whose 31st
entries differ produce different `scorePercent()` values, so the 11th
through 30th outcomes are NOT the only ones reflected in the score. -/
theorem gauntlet_scored_window_cex :
    gauntletSeqA.take 30 = gauntletSeqB.take 30 ∧
    (gauntletSeqA.drop 10).take 20 = (gauntletSeqB.drop 10).take 20 ∧
    (runGauntlet gauntletSeqA).scorePercent ≠
      (runGauntlet gauntletSeqB).scorePercent := by
  decide

/-- C3 amended: from reset, the first 10 outcomes never change `correct`
or `scored_completed`; `isComplete()` iff `scored_completed >= 20`;
`scorePercent()` is the integer percentage `correct*100/scored_completed`
(0 when `scored_completed = 0`); and in any run of at most
`WARMUP_TRIALS + SCORED_TRIALS = 30` outcomes (the caller stops once
complete) only the 11th through 30th outcomes are reflected: `correct`
counts the `true` entries among outcomes 11..30, and 15 correct of the
20 scored outcomes yields `scorePercent() = 75`. -/
theorem gauntlet_spec (outcomes : List Bool) :
    (outcomes.length ≤ 10 → (runGauntlet outcomes).correct = 0 ∧
      (runGauntlet outcomes).scored_completed = 0) ∧
    ((runGauntlet outcomes).isComplete = true ↔
      20 ≤ (runGauntlet outcomes).scored_completed) ∧
    ((runGauntlet outcomes).scorePercent =
      if (runGauntlet outcomes).scored_completed = 0 then 0
      else (runGauntlet outcomes).correct * 100 /
        (runGauntlet outcomes).scored_completed) ∧
    (outcomes.length ≤ 30 →
      (runGauntlet outcomes).correct = ((outcomes.drop 10).take 20).count true ∧
      (runGauntlet outcomes).scored_completed = min (outcomes.length - 10) 20) ∧
    (outcomes.length = 30 → (outcomes.drop 10).count true = 15 →
      (runGauntlet outcomes).scorePercent = 75) := by
  obtain ⟨hw, hs, hc⟩ := runGauntlet_closed_form outcomes
  refine ⟨?_, ?_, rfl, ?_, ?_⟩
  · intro hlen
    have hdrop : outcomes.drop 10 = [] := by
      apply List.eq_nil_of_length_eq_zero
      simp
      omega
    constructor
    · rw [hc, hdrop]
      rfl
    · rw [hs]
      omega
  · simp [GauntletState.isComplete, GauntletState.SCORED_TRIALS]
  · intro hlen
    have hdlen : (outcomes.drop 10).length ≤ 20 := by
      simp
      omega
    have htake : (outcomes.drop 10).take 20 = outcomes.drop 10 :=
      List.take_of_length_le hdlen
    constructor
    · rw [hc, htake]
    · rw [hs]
      omega
  · intro hlen hcount
    have hs30 : (runGauntlet outcomes).scored_completed = 20 := by
      rw [hs, hlen]
    have hc15 : (runGauntlet outcomes).correct = 15 := by
      rw [hc, hcount]
    simp [GauntletState.scorePercent, hs30, hc15]

/-- Witness for C3 (amended) at the concrete 30-trial sequence with 15
of the 20 scored outcomes correct. -/
theorem gauntlet_spec_witness :
    (gauntletSeq75.length ≤ 10 → (runGauntlet gauntletSeq75).correct = 0 ∧
      (runGauntlet gauntletSeq75).scored_completed = 0) ∧
    gauntletSeq75.length = 30 ∧ (gauntletSeq75.drop 10).count true = 15 ∧
    (runGauntlet gauntletSeq75).scorePercent = 75 :=
  ⟨(gauntlet_spec gauntletSeq75).1, by decide, by decide,
    (gauntlet_spec gauntletSeq75).2.2.2.2 (by decide) (by decide)⟩

/-- C10: after every outcome sequence from reset, `warmup_completed` never
exceeds 10, `correct` never exceeds `scored_completed`, and therefore
`scorePercent()` always lies in `[0, 100]`. -/
theorem gauntlet_invariants (outcomes : List Bool) :
    (runGauntlet outcomes).warmup_completed ≤ 10 ∧
    (runGauntlet outcomes).correct ≤ (runGauntlet outcomes).scored_completed ∧
    (runGauntlet outcomes).scorePercent ≤ 100 := by
  obtain ⟨hw, hs, hc⟩ := runGauntlet_closed_form outcomes
  have hcs : (runGauntlet outcomes).correct ≤
      (runGauntlet outcomes).scored_completed := by
    rw [hc, hs]
    calc (outcomes.drop 10).count true ≤ (outcomes.drop 10).length :=
          List.count_le_length true (outcomes.drop 10)
      _ = outcomes.length - 10 := by simp
  refine ⟨by rw [hw]; omega, hcs, ?_⟩
  unfold GauntletState.scorePercent
  rcases Nat.eq_zero_or_pos (runGauntlet outcomes).scored_completed with h0 | hpos
  · simp [h0]
  · have hne : (runGauntlet outcomes).scored_completed ≠ 0 := by omega
    simp only [hne, if_neg, ite_false]
    calc (runGauntlet outcomes).correct * 100 /
          (runGauntlet outcomes).scored_completed
        ≤ (runGauntlet outcomes).scored_completed * 100 /
          (runGauntlet outcomes).scored_completed :=
          Nat.div_le_div_right (Nat.mul_le_mul_right 100 hcs)
      _ = 100 := Nat.mul_div_cancel_left 100 hpos

/-- C6: the transition table of `pressButton`: A from `START` gives
`PRESSED_A`/true, B gives `FAIL`/false; B from `PRESSED_A` gives
`SUCCESS`/true, A gives `FAIL`/false; in `SUCCESS` or `FAIL` every press
is a no-op returning false. -/
theorem sequence_puzzle_transitions :
    SequencePuzzle.pressButton .START 0 = (true, .PRESSED_A) ∧
    SequencePuzzle.pressButton .START 1 = (false, .FAIL) ∧
    SequencePuzzle.pressButton .PRESSED_A 1 = (true, .SUCCESS) ∧
    SequencePuzzle.pressButton .PRESSED_A 0 = (false, .FAIL) ∧
    (∀ b : Int, SequencePuzzle.pressButton .SUCCESS b = (false, .SUCCESS) ∧
      SequencePuzzle.pressButton .FAIL b = (false, .FAIL)) :=
  ⟨rfl, rfl, rfl, rfl, fun _ => ⟨rfl, rfl⟩⟩

/-- If the re-draw loop returns, the returned size is a drawn value in
`[32,127]` whose gap from `sizeA` is at least 20. -/
theorem mushroom_forceGap_spec (sizeA : Int) :
    ∀ (fuel : Nat) (sB : Int) (r : RNG) (out : Int) (r2 : RNG),
      32 ≤ sB → sB ≤ 127 →
      MushroomTrial.forceGap sizeA fuel sB r = some (out, r2) →
      32 ≤ out ∧ out ≤ 127 ∧ 20 ≤ |sizeA - out| := by
  intro fuel
  induction fuel with
  | zero =>
    intro sB r out r2 h32 h127 h
    rw [MushroomTrial.forceGap] at h
    by_cases hgap : |sizeA - sB| < 20
    · simp [hgap] at h
    · simp [hgap] at h
      obtain ⟨hout, _⟩ := h
      subst hout
      omega
  | succ f ih =>
    intro sB r out r2 h32 h127 h
    rw [MushroomTrial.forceGap] at h
    by_cases hgap : |sizeA - sB| < 20
    · simp only [hgap, if_pos] at h
      have hmod : (r.next.1 % 96 : Nat) < 96 := Nat.mod_lt _ (by norm_num)
      exact ih _ _ out r2 (by omega) (by push_cast; omega) h
    · simp [hgap] at h
      obtain ⟨hout, _⟩ := h
      subst hout
      omega

/-- C7: every trial produced by non-adversarial generation has both
sizes in `[32,127]` with a gap of at least 20, both colors in
`[0,127]`, and `correctIsA` exactly when `sizeA > sizeB`. -/
theorem mushroom_generate_spec (rng : RNG) (fuel : Nat) (t : MushroomTrial)
    (r' : RNG) (h : MushroomTrial.generate rng fuel = some (t, r')) :
    32 ≤ t.sizeA ∧ t.sizeA ≤ 127 ∧ 32 ≤ t.sizeB ∧ t.sizeB ≤ 127 ∧
    20 ≤ |t.sizeA - t.sizeB| ∧
    0 ≤ t.colorA ∧ t.colorA ≤ 127 ∧ 0 ≤ t.colorB ∧ t.colorB ≤ 127 ∧
    (t.correctIsA = true ↔ t.sizeB < t.sizeA) := by
  unfold MushroomTrial.generate at h
  rw [Option.map_eq_some'] at h
  obtain ⟨⟨sizeB, r2⟩, hfg, heq⟩ := h
  have hmodA : (rng.next.1 % 96 : Nat) < 96 := Nat.mod_lt _ (by norm_num)
  have hmodB : (rng.next.2.next.1 % 96 : Nat) < 96 := Nat.mod_lt _ (by norm_num)
  obtain ⟨hb32, hb127, hgap⟩ :=
    mushroom_forceGap_spec _ fuel _ _ sizeB r2
      (by push_cast; omega) (by push_cast; omega) hfg
  have hmodC : (r2.next.1 % 128 : Nat) < 128 := Nat.mod_lt _ (by norm_num)
  have hmodD : (r2.next.2.next.1 % 128 : Nat) < 128 := Nat.mod_lt _ (by norm_num)
  obtain ⟨ht, _⟩ := Prod.mk.injEq .. |>.mp heq
  subst ht
  refine ⟨by push_cast; omega, by push_cast; omega, hb32, hb127, hgap,
    by push_cast; omega, by push_cast; omega,
    by push_cast; omega, by push_cast; omega, by simp⟩

/-- Witness for C7 at seed 42 with fuel 10. -/
theorem mushroom_generate_spec_witness :
    MushroomTrial.generate (RNG.ofSeed 42) 10 =
      some (mushroomT42, ⟨3759983556⟩) ∧
    (32 ≤ mushroomT42.sizeA ∧ mushroomT42.sizeA ≤ 127 ∧
     32 ≤ mushroomT42.sizeB ∧ mushroomT42.sizeB ≤ 127 ∧
     20 ≤ |mushroomT42.sizeA - mushroomT42.sizeB| ∧
     0 ≤ mushroomT42.colorA ∧ mushroomT42.colorA ≤ 127 ∧
     0 ≤ mushroomT42.colorB ∧ mushroomT42.colorB ≤ 127 ∧
     (mushroomT42.correctIsA = true ↔ mushroomT42.sizeB < mushroomT42.sizeA)) :=
  ⟨by decide,
    mushroom_generate_spec (RNG.ofSeed 42) 10 mushroomT42 ⟨3759983556⟩
      (by decide)⟩

/-- The eviction loop drops exactly the front overflow: it returns the
last 4 entries (all entries when there are at most 4). -/
theorem history_shrink_eq_drop :
    ∀ (n : Nat) (l : List HistoryEntry), l.length ≤ n →
      History.shrink l = l.drop (l.length - 4) := by
  intro n
  induction n with
  | zero =>
    intro l hl
    have : l = [] := List.eq_nil_of_length_eq_zero (by omega)
    subst this
    rw [History.shrink]
    simp [History.MAX_ENTRIES]
  | succ k ih =>
    intro l hl
    rw [History.shrink]
    by_cases h4 : History.MAX_ENTRIES < l.length
    · rw [dif_pos h4]
      simp only [History.MAX_ENTRIES] at h4
      cases l with
      | nil => simp at h4
      | cons a t =>
        have ht : t.length ≤ k := by
          simp at hl
          omega
        simp only [List.tail_cons]
        rw [ih t ht]
        simp only [List.length_cons]
        have hidx : t.length + 1 - 4 = (t.length - 4) + 1 := by
          simp at h4
          omega
        rw [hidx, List.drop_succ_cons]
    · rw [dif_neg h4]
      simp only [History.MAX_ENTRIES] at h4
      have : l.length - 4 = 0 := by omega
      rw [this, List.drop_zero]

/-- After any operation sequence the history holds at most 4 entries. -/
theorem runHistory_length_le :
    ∀ (ops : List HistOp) (l : List HistoryEntry), l.length ≤ 4 →
      (ops.foldl History.applyOp l).length ≤ 4 := by
  intro ops
  induction ops with
  | nil => intro l hl; exact hl
  | cons op rest ih =>
    intro l hl
    apply ih
    cases op with
    | add e =>
      simp only [History.applyOp, History.add]
      rw [history_shrink_eq_drop (l ++ [e]).length _ (le_refl _)]
      simp
      omega
    | clear => simp [History.applyOp]

/-- C8: `size() <= 4` after every sequence of `add`/`clear` operations,
and six successive `add` calls from empty leave exactly the last four
entries, in insertion order. -/
theorem trial_history_spec :
    (∀ ops : List HistOp, (runHistory ops).length ≤ 4) ∧
    (∀ e1 e2 e3 e4 e5 e6 : HistoryEntry,
      runHistory [.add e1, .add e2, .add e3, .add e4, .add e5, .add e6] =
        [e3, e4, e5, e6]) := by
  constructor
  · intro ops
    exact runHistory_length_le ops [] (by simp)
  · intro e1 e2 e3 e4 e5 e6
    have hsh : ∀ l : List HistoryEntry,
        History.shrink l = l.drop (l.length - 4) :=
      fun l => history_shrink_eq_drop l.length l (le_refl _)
    simp [runHistory, History.applyOp, History.add, hsh]

/-- C9: drawing calls never write outside `[0,80) x [0,24)` — an
out-of-bounds cell is unchanged by `putString`, `putChar` and
`drawHLine` — and `putString(75, 0, "0123456789")` on a cleared buffer
writes exactly columns 75-79 of row 0 (bytes of the digits 0-4), every
other cell staying a space. -/
theorem textbuffer_clamping :
    (∀ (tb : TextBuffer) (x y : Int) (s : List Nat) (cx cy : Int),
      ¬(0 ≤ cx ∧ cx < 80 ∧ 0 ≤ cy ∧ cy < 24) →
      (tb.putString x y s).cell cx cy = tb.cell cx cy) ∧
    (∀ (tb : TextBuffer) (x y : Int) (c : Nat) (cx cy : Int),
      ¬(0 ≤ cx ∧ cx < 80 ∧ 0 ≤ cy ∧ cy < 24) →
      (tb.putChar x y c).cell cx cy = tb.cell cx cy) ∧
    (∀ (tb : TextBuffer) (x y len : Int) (c : Nat) (cx cy : Int),
      ¬(0 ≤ cx ∧ cx < 80 ∧ 0 ≤ cy ∧ cy < 24) →
      (tb.drawHLine x y len c).cell cx cy = tb.cell cx cy) ∧
    (∀ cx cy : Int,
      (TextBuffer.clear.putString 75 0 (strBytes "0123456789")).cell cx cy =
        if cy = 0 ∧ 75 ≤ cx ∧ cx < 80 then 48 + (cx - 75).toNat else 32) := by
  refine ⟨?_, ?_, ?_, ?_⟩
  · intro tb x y s cx cy hnb
    unfold TextBuffer.putString
    by_cases hy : y < 0 ∨ terminalHeight ≤ y
    · rw [if_pos hy]
    · rw [if_neg hy]
      simp only
      rw [if_neg]
      rintro ⟨rfl, h2, h3, h4, h5⟩
      simp only [terminalHeight, terminalWidth] at hy h5
      omega
  · intro tb x y c cx cy hnb
    unfold TextBuffer.putChar
    simp only
    rw [if_neg]
    rintro ⟨h1, h2, h3, h4, rfl, rfl⟩
    simp only [terminalHeight, terminalWidth] at h2 h4
    omega
  · intro tb x y len c cx cy hnb
    unfold TextBuffer.drawHLine
    simp only
    rw [if_neg]
    rintro ⟨rfl, h2, h3, h4, h5, h6, h7⟩
    simp only [terminalHeight, terminalWidth] at h3 h7
    omega
  · intro cx cy
    unfold TextBuffer.putString TextBuffer.clear
    simp only [terminalHeight, terminalWidth]
    rw [if_neg (by omega)]
    simp only
    by_cases hc : cy = 0 ∧ 75 ≤ cx ∧ cx < 80
    · obtain ⟨rfl, h1, h2⟩ := hc
      rw [if_pos ⟨rfl, by omega, by omega,
        by simp [strBytes]; omega, by omega⟩]
      rw [if_pos ⟨rfl, h1, h2⟩]
      interval_cases cx <;> decide
    · rw [if_neg ?side, if_neg hc]
      case side =>
        rintro ⟨rfl, hx0, hx75, hxlen, hx80⟩
        simp only [strBytes] at hxlen
        apply hc
        refine ⟨rfl, by omega, ?_⟩
        simp at hxlen
        omega

/-- Witness for C9: cell (100, 5) is out of bounds and unchanged by a
`putString` on a cleared buffer. -/
theorem textbuffer_clamping_witness :
    ¬(0 ≤ (100 : Int) ∧ (100 : Int) < 80 ∧ 0 ≤ (5 : Int) ∧ (5 : Int) < 24) ∧
    (TextBuffer.clear.putString 0 0 [65]).cell 100 5 =
      TextBuffer.clear.cell 100 5 :=
  ⟨by decide, textbuffer_clamping.1 TextBuffer.clear 0 0 [65] 100 5 (by decide)⟩

/-- Unescaping a byte that is not a backslash leaves it in place. -/
theorem unescape_cons_of_ne (c : Nat) (t : List Nat) (h : c ≠ 92) :
    unescape (c :: t) = c :: unescape t := by
  rw [unescape.eq_def]
  split
  · next heq => injection heq with h1 _; exact absurd h1 h
  · next heq => injection heq with h1 _; exact absurd h1 h
  · next heq => injection heq with h1 _; exact absurd h1 h
  · next heq => injection heq with h1 _; exact absurd h1 h
  · next heq => injection heq with h1 _; exact absurd h1 h
  · next heq => injection heq with h1 h2; rw [h1, h2]
  · next heq => cases heq

/-- Each hex digit byte decodes back to its value. -/
theorem hexVal_hexDigit : ∀ n < 16, hexVal (hexDigit n) = n := by
  decide

/-- Unescaping the escape of one recoverable byte (any byte other than
13 and 127) restores that byte in front of the unescaped rest. -/
theorem unescape_encByte (c : Nat) (hc : c < 256) (h13 : c ≠ 13)
    (h127 : c ≠ 127) (t : List Nat) :
    unescape (encByte c ++ t) = c :: unescape t := by
  unfold encByte
  by_cases h34 : c = 34
  · subst h34; simp [unescape]
  rw [if_neg h34]
  by_cases h92 : c = 92
  · subst h92; simp [unescape]
  rw [if_neg h92]
  by_cases h10 : c = 10
  · subst h10; simp [unescape]
  rw [if_neg h10]
  rw [if_neg h13]
  by_cases h9 : c = 9
  · subst h9; simp [unescape]
  rw [if_neg h9]
  by_cases hpr : 32 ≤ sByte c ∧ sByte c < 127
  · rw [if_pos hpr]
    exact unescape_cons_of_ne c t h92
  rw [if_neg hpr]
  by_cases hctl : sByte c < 32
  · rw [if_pos hctl]
    have hd1 : c / 16 % 16 < 16 := Nat.mod_lt _ (by norm_num)
    have hd2 : c % 16 < 16 := Nat.mod_lt _ (by norm_num)
    have e1 := hexVal_hexDigit _ hd1
    have e2 := hexVal_hexDigit _ hd2
    simp only [unescape, e1, e2]
    have : c / 16 % 16 * 16 + c % 16 = c := by omega
    rw [this]
    simp
  · exfalso
    unfold sByte at hpr hctl
    by_cases h128 : c < 128
    · simp only [h128, if_pos] at hpr hctl
      push_neg at hpr hctl
      have : (127 : Int) ≤ (c : Int) := by
        rcases hpr (by exact_mod_cast hctl) with h
        exact h
      have : c = 127 := by omega
      exact h127 this
    · simp only [h128, if_neg, ite_false] at hctl
      push_neg at hctl
      omega

/-- Unescaping the escape of any content made of recoverable bytes
(byte values below 256 other than 13 and 127) restores the content. -/
theorem unescape_escapeForJson (l : List Nat)
    (h : ∀ c ∈ l, c < 256 ∧ c ≠ 13 ∧ c ≠ 127) :
    unescape (escapeForJson l) = l := by
  induction l with
  | nil => rfl
  | cons c cs ih =>
    obtain ⟨hc, h13, h127⟩ := h c (List.mem_cons_self c cs)
    rw [escapeForJson, unescape_encByte c hc h13 h127]
    rw [ih (fun d hd => h d (List.mem_cons_of_mem c hd))]

/-- Unfolding `joinRowsNl` on a list of at least two rows. -/
theorem joinRowsNl_cons_cons (r r2 : List Nat) (rs : List (List Nat)) :
    joinRowsNl (r :: r2 :: rs) = r ++ 10 :: joinRowsNl (r2 :: rs) := rfl

/-- Appending a newline to every row and concatenating equals joining
the rows by newlines plus one trailing newline (for a nonempty list of
rows). -/
theorem flatten_rows_eq_joinRowsNl :
    ∀ (ls : List (List Nat)), ls ≠ [] →
      (ls.map (fun r => r ++ [10])).flatten = joinRowsNl ls ++ [10] := by
  intro ls
  induction ls with
  | nil => intro h; exact absurd rfl h
  | cons r rs ih =>
    intro _
    cases rs with
    | nil => simp [joinRowsNl]
    | cons r2 rs2 =>
      rw [List.map_cons, List.flatten_cons, ih (by simp),
        joinRowsNl_cons_cons]
      simp

/-- C5 counterexample: for the cleared grid's first frame, unescaping
the escaped frame text does NOT give the rows joined by newlines — the
frame content also carries the ANSI initialization prefix (and a
trailing newline), so the two differ already at the first byte
(ESC = 27 versus space = 32). -/
theorem frame_roundtrip_cex :
    unescape (escapeForJson (buildFrameContent true TextBuffer.clear)) ≠
      rowsJoinedByNewlines TextBuffer.clear := by
  intro h
  have h1 : (unescape (escapeForJson
      (buildFrameContent true TextBuffer.clear))).head? = some 27 := by rfl
  have h2 : (rowsJoinedByNewlines TextBuffer.clear).head? = some 32 := by rfl
  rw [h, h2] at h1
  exact absurd h1 (by decide)

/-- C5 amended: for every grid whose cells are bytes other than 0 (NUL,
where the C-string row append truncates), 13 (CR) and 127 (DEL, both
dropped by the escaping), unescaping the escaped frame text per the
stated rules reproduces the full frame content: the ANSI INIT prefix
(first frame) or CLEAR prefix (later frames), then the grid's row
content joined by real newlines, then one trailing newline. -/
theorem frame_roundtrip_amended (firstFrame : Bool) (tb : TextBuffer)
    (h : ∀ x y : Int, 0 ≤ x → x < 80 → 0 ≤ y → y < 24 →
      tb.cell x y ≠ 0 ∧ tb.cell x y < 256 ∧ tb.cell x y ≠ 13 ∧
        tb.cell x y ≠ 127) :
    unescape (escapeForJson (buildFrameContent firstFrame tb)) =
      (if firstFrame then ansiInit else ansiClear) ++
        (rowsJoinedByNewlines tb ++ [10]) := by
  have hline : ∀ y : Nat, y < 24 → tb.lineOf (y : Int) = tb.rowBytes (y : Int) := by
    intro y hy
    unfold TextBuffer.lineOf
    rw [List.takeWhile_eq_self_iff]
    intro c hcmem
    unfold TextBuffer.rowBytes at hcmem
    rw [List.mem_map] at hcmem
    obtain ⟨x, hx, hcell⟩ := hcmem
    rw [List.mem_range] at hx
    subst hcell
    have hne := (h x y (by positivity) (by exact_mod_cast hx)
      (by positivity) (by exact_mod_cast hy)).1
    simpa using hne
  have hbuild : buildFrameContent firstFrame tb =
      (if firstFrame then ansiInit else ansiClear) ++
        ((List.range 24).map
          (fun (y : Nat) => tb.rowBytes (y : Int) ++ [10])).flatten := by
    unfold buildFrameContent
    congr 1
    congr 1
    apply List.map_congr_left
    intro y hy
    rw [List.mem_range] at hy
    rw [hline y hy]
  rw [hbuild]
  have hok : ∀ c ∈ (if firstFrame then ansiInit else ansiClear) ++
      ((List.range 24).map
        (fun (y : Nat) => tb.rowBytes (y : Int) ++ [10])).flatten,
      c < 256 ∧ c ≠ 13 ∧ c ≠ 127 := by
    intro c hcmem
    rw [List.mem_append] at hcmem
    rcases hcmem with hpre | hrows
    · have hinit : ∀ c ∈ ansiInit, c < 256 ∧ c ≠ 13 ∧ c ≠ 127 := by decide
      have hclr : ∀ c ∈ ansiClear, c < 256 ∧ c ≠ 13 ∧ c ≠ 127 := by decide
      cases firstFrame with
      | true => exact hinit c (by simpa using hpre)
      | false => exact hclr c (by simpa using hpre)
    · rw [List.mem_flatten] at hrows
      obtain ⟨row, hrow, hcrow⟩ := hrows
      rw [List.mem_map] at hrow
      obtain ⟨y, hy, hrow⟩ := hrow
      rw [List.mem_range] at hy
      subst hrow
      rw [List.mem_append] at hcrow
      rcases hcrow with hrowmem | hnl
      · unfold TextBuffer.rowBytes at hrowmem
        rw [List.mem_map] at hrowmem
        obtain ⟨x, hx, hcell⟩ := hrowmem
        rw [List.mem_range] at hx
        subst hcell
        exact (h x y (by positivity) (by exact_mod_cast hx)
          (by positivity) (by exact_mod_cast hy)).2
      · simp at hnl
        subst hnl
        refine ⟨by norm_num, by norm_num, by norm_num⟩
  rw [unescape_escapeForJson _ hok]
  unfold rowsJoinedByNewlines
  have hmm : List.map (fun (y : Nat) => tb.rowBytes (y : Int) ++ [10])
        (List.range 24) =
      List.map (fun r => r ++ [10])
        (List.map (fun (y : Nat) => tb.rowBytes (y : Int)) (List.range 24)) := by
    rw [List.map_map]
    rfl
  rw [hmm, flatten_rows_eq_joinRowsNl _ (by simp)]

/-- Witness for C5 (amended) at the cleared grid and the first frame. -/
theorem frame_roundtrip_amended_witness :
    (∀ x y : Int, 0 ≤ x → x < 80 → 0 ≤ y → y < 24 →
      TextBuffer.clear.cell x y ≠ 0 ∧ TextBuffer.clear.cell x y < 256 ∧
        TextBuffer.clear.cell x y ≠ 13 ∧ TextBuffer.clear.cell x y ≠ 127) ∧
    unescape (escapeForJson (buildFrameContent true TextBuffer.clear)) =
      (if true then ansiInit else ansiClear) ++
        (rowsJoinedByNewlines TextBuffer.clear ++ [10]) := by
  have hcells : ∀ x y : Int, 0 ≤ x → x < 80 → 0 ≤ y → y < 24 →
      TextBuffer.clear.cell x y ≠ 0 ∧ TextBuffer.clear.cell x y < 256 ∧
        TextBuffer.clear.cell x y ≠ 13 ∧ TextBuffer.clear.cell x y ≠ 127 := by
    intro x y _ _ _ _
    refine ⟨?_, ?_, ?_, ?_⟩ <;> norm_num [TextBuffer.clear]
  exact ⟨hcells, frame_roundtrip_amended true TextBuffer.clear hcells⟩

end enen
